import Mathlib

/-!
Verification of lightstep-tracer-go: benchmark client and HTTP collector client

Shallow embedding of `cmd/benchmark/main.go` (`work`, `testBody`, `run`,
`getURL`, `loop`) and of `http_collector_client.go` (`ConnectClient`,
`ShouldReconnect`, `Report`, `toRequest`, `toResponse`, `transportCloser.Close`),
with the redirect handling of `http.Client.Do` that `Report` relies on.

Conventions.
* Go `int64` and `time.Duration` values are `Int`s; every arithmetic operation
  of the source that can overflow is followed by `wrapInt64` (two's complement).
* A Go panic is the result `none` of an `Option`-valued function.
* The outside world (clock, sleeping, scheduler, network, codecs) is a record of
  functions that the embedded code consults where the source calls out.
-/

namespace Lightstep

/-! ## Machine integers -/

/-- Two's-complement wrap of a mathematical integer into the `int64` range. -/
def wrapInt64 (z : Int) : Int := (z + 2 ^ 63) % 2 ^ 64 - 2 ^ 63

/-- Range of Go's `int64`. -/
def isInt64 (z : Int) : Prop := -2 ^ 63 ≤ z ∧ z < 2 ^ 63

instance (z : Int) : Decidable (isInt64 z) := by unfold isInt64; infer_instance

/-! ## `work` (main.go, lines 45-53) -/

/-- The constant `primeWork`. -/
def primeWork : Int := 982451653

/-- The loop `for n != 0 { x *= primeWork; n-- }`.  The third component counts the
executions of `x *= primeWork`.  The recursion is well founded: the unsigned
reading of `n` decreases with every `n--`. -/
def workLoop (x n : Int) (mults : Nat) : Int × Nat :=
  if n ≠ 0 then
    workLoop (wrapInt64 (x * primeWork)) (wrapInt64 (n - 1)) (mults + 1)
  else
    (x, mults)
termination_by (if isInt64 n then (n % 2 ^ 64).toNat else 2 ^ 64)
decreasing_by
  have hw : isInt64 (wrapInt64 (n - 1)) := by
    unfold isInt64 wrapInt64; omega
  rw [if_pos hw]
  have hm : wrapInt64 (n - 1) % 2 ^ 64 = (n - 1) % 2 ^ 64 := by
    unfold wrapInt64; omega
  rw [hm]
  split
  · rename_i hn
    unfold isInt64 at hn
    omega
  · omega

/-- Result of `work n` together with the number of multiplications performed. -/
def workRun (n : Int) : Int × Nat := workLoop primeWork n 0

/-- The function `work`. -/
def work (n : Int) : Int := (workRun n).1

/-! ## Experiment specification (`bench.Control`, as used by main.go) -/

/-- The fields of `bench.Control` that main.go reads.  `Repeat`, `Work`, `NumLogs`
and `BytesPerLog` are `int64`, `Sleep` and `SleepInterval` are `time.Duration`
(nanoseconds), `Concurrent` is `int`. -/
structure Control where
  Repeat : Int
  Work : Int
  NumLogs : Int
  BytesPerLog : Int
  Sleep : Int
  SleepInterval : Int
  Concurrent : Int
  Trace : Bool
  Exit : Bool
deriving DecidableEq

/-! ## `init` and `testBody` (main.go, lines 32-38 and 94-117) -/

/-- The string built by `init`: `logsSizeMax` bytes, byte `i` being `'A' + i % 26`.
The constant `bench.LogsSizeMax` is a parameter. -/
def logPayloadStr (logsSizeMax : Nat) : List Char :=
  (List.range logsSizeMax).map fun i => Char.ofNat (65 + i % 26)

/-- The slice expression `s[0:hi]`; `none` is the run-time panic for a bound out of
range. -/
def sliceTo (s : List Char) (hi : Int) : Option (List Char) :=
  if 0 ≤ hi ∧ hi ≤ (s.length : Int) then some (s.take hi.toNat) else none

/-- The inner loop `for i := int64(0); i < control.NumLogs; i++`, by the number of
iterations still to run; the accumulator is the list of payloads logged on the span. -/
def logLoop (logsSizeMax : Nat) (c : Control) : Nat → List (List Char) → Option (List (List Char))
  | 0, logs => some logs
  | k + 1, logs =>
    match sliceTo (logPayloadStr logsSizeMax) c.BytesPerLog with
    | none => none
    | some payload => logLoop logsSizeMax c k (logs ++ [payload])

/-- Local variables of `testBody`, with two records of its effects: the calls of
`time.Sleep` as pairs (requested duration, measured elapsed time), and the finished
spans with their log payloads. -/
structure BodyState where
  sleep_debt : Int
  answer : Int
  totalSleep : Int
  sleepCalls : List (Int × Int)
  spans : List (List (List Char))
deriving DecidableEq

/-- State at the entry of `testBody`. -/
def BodyState.init : BodyState :=
  { sleep_debt := 0, answer := 0, totalSleep := 0, sleepCalls := [], spans := [] }

/-- One iteration of the outer loop of `testBody`.  `elapsed k d` is the value of
`time.Now().Sub(begin)` measured around the `k`-th call `time.Sleep(d)` of this
worker. -/
def testBodyCycle (logsSizeMax : Nat) (elapsed : Nat → Int → Int) (c : Control)
    (st : BodyState) : Option BodyState :=
  let answer := work c.Work
  match logLoop logsSizeMax c c.NumLogs.toNat [] with
  | none => none
  | some span =>
    let sleep_debt := wrapInt64 (st.sleep_debt + c.Sleep)
    if sleep_debt ≤ c.SleepInterval then
      some { st with sleep_debt := sleep_debt, answer := answer, spans := st.spans ++ [span] }
    else
      let e := elapsed st.sleepCalls.length sleep_debt
      some { sleep_debt := wrapInt64 (sleep_debt - e)
             answer := answer
             totalSleep := wrapInt64 (st.totalSleep + e)
             sleepCalls := st.sleepCalls ++ [(sleep_debt, e)]
             spans := st.spans ++ [span] }

/-- The outer loop `for i := int64(0); i < control.Repeat; i++`, by the number of
iterations still to run. -/
def testBodyLoop (logsSizeMax : Nat) (elapsed : Nat → Int → Int) (c : Control) :
    Nat → BodyState → Option BodyState
  | 0, st => some st
  | k + 1, st =>
    match testBodyCycle logsSizeMax elapsed c st with
    | none => none
    | some st1 => testBodyLoop logsSizeMax elapsed c k st1

/-- Run of `testBody` with all its local state at the `return`. -/
def testBodyState (logsSizeMax : Nat) (elapsed : Nat → Int → Int) (c : Control) :
    Option BodyState :=
  testBodyLoop logsSizeMax elapsed c c.Repeat.toNat BodyState.init

/-- The function `testBody`: the pair `(totalSleep, answer)`, or `none` on a panic. -/
def testBody (logsSizeMax : Nat) (elapsed : Nat → Int → Int) (c : Control) :
    Option (Int × Int) :=
  (testBodyState logsSizeMax elapsed c).map fun st => (st.totalSleep, st.answer)

/-- The slice `logPayloadStr[0:control.BytesPerLog]` is never evaluated with a bound
out of range: no cycle runs, or no log is attached, or the bound fits the payload. -/
def payloadOk (logsSizeMax : Nat) (c : Control) : Prop :=
  c.Repeat ≤ 0 ∨ c.NumLogs ≤ 0 ∨ (0 ≤ c.BytesPerLog ∧ c.BytesPerLog ≤ (logsSizeMax : Int))

instance (logsSizeMax : Nat) (c : Control) : Decidable (payloadOk logsSizeMax c) := by
  unfold payloadOk; infer_instance

/-- The sleep-debt rule in the words of the specification, for one cycle, on the pair
(debt, sleeps performed so far): add `sleepPerCycle` to the debt; if the debt exceeds
`sleepFlushInterval`, sleep for the entire current debt, measure the elapsed time and
reduce the debt by the measured amount.  Durations are `int64` nanoseconds. -/
def specSleepCycle (sleepPerCycle sleepFlushInterval : Int) (measure : Nat → Int → Int)
    (p : Int × List (Int × Int)) : Int × List (Int × Int) :=
  let debt := wrapInt64 (p.1 + sleepPerCycle)
  if debt > sleepFlushInterval then
    let measured := measure p.2.length debt
    (wrapInt64 (debt - measured), p.2 ++ [(debt, measured)])
  else
    (debt, p.2)

/-- The rule of the specification applied for `cycles` cycles, from no debt. -/
def specSleepRun (sleepPerCycle sleepFlushInterval : Int) (measure : Nat → Int → Int)
    (cycles : Nat) : Int × List (Int × Int) :=
  Nat.iterate (specSleepCycle sleepPerCycle sleepFlushInterval measure) cycles (0, [])

/-! ## `run` (main.go, lines 119-163) -/

/-- The method `Time.Sub`: the difference of two clock readings, saturated to the
range of `time.Duration`. -/
def timeSub (t u : Int) : Int := max (-2 ^ 63) (min (2 ^ 63 - 1) (t - u))

/-- What one call of `run` observes of the world: `clock k` is the value of the
`k`-th call of `time.Now()` made by `run` itself (0 `beginTest`, 1 `endTime`, 2 the
reading after `Flush`), `sleepElapsed w` is the sleep measurement of worker `w`
inside `testBody`, and `schedule` is the order in which the scheduler lets the
goroutines take their steps after `testBody` has returned. -/
structure Env where
  clock : Nat → Int
  sleepElapsed : Nat → Nat → Int → Int
  schedule : List Nat

/-- Observable actions of `run`, in program order. -/
inductive Event where
  | initGlobalTracer (recording : Bool)
  | now (k : Nat)
  | workerFinished (w : Nat)
  | flush
deriving DecidableEq

/-- A goroutine of `run` after its `testBody` has returned `(s, a)`: `pc` is its
position in `sleeps += s; answer += a; finish.Done()`, each `+=` being a load into
`tmp` followed by a store.  The start barrier (`start.Done(); start.Wait()`) comes
before `testBody` and touches none of these variables. -/
structure Worker where
  s : Int
  a : Int
  pc : Nat
  tmp : Int
deriving DecidableEq

/-- The variables shared by the goroutines of `run`: the two sums captured by the
closure and the counter of the `finish` wait group. -/
structure Shared where
  sleeps : Int
  answer : Int
  finish : Int
  events : List Event
deriving DecidableEq

/-- One atomic step of goroutine `w`. -/
def workerStep (w : Nat) (wk : Worker) (sh : Shared) : Worker × Shared :=
  match wk.pc with
  | 0 => ({ wk with pc := 1, tmp := sh.sleeps }, sh)
  | 1 => ({ wk with pc := 2 }, { sh with sleeps := wrapInt64 (wk.tmp + wk.s) })
  | 2 => ({ wk with pc := 3, tmp := sh.answer }, sh)
  | 3 => ({ wk with pc := 4 }, { sh with answer := wrapInt64 (wk.tmp + wk.a) })
  | 4 => ({ wk with pc := 5 },
          { sh with finish := sh.finish - 1, events := sh.events ++ [Event.workerFinished w] })
  | _ => (wk, sh)

/-- Execution of a schedule: each entry lets the named goroutine take one step; an
entry naming no goroutine, or one that has returned, changes nothing. -/
def runSchedule : List Nat → List Worker → Shared → List Worker × Shared
  | [], ws, sh => (ws, sh)
  | w :: rest, ws, sh =>
    match ws[w]? with
    | none => runSchedule rest ws sh
    | some wk =>
      let r := workerStep w wk sh
      runSchedule rest (ws.set w r.1) r.2

/-- The `conc` goroutines started by `for c := 0; c < conc; c++ { go func() {...}() }`,
each taken after its call of `testBody`; `none` when one of them panics. -/
def spawnWorkers (logsSizeMax : Nat) (env : Env) (c : Control) : Nat → Option (List Worker)
  | 0 => some []
  | k + 1 =>
    match spawnWorkers logsSizeMax env c k with
    | none => none
    | some ws =>
      match testBody logsSizeMax (env.sleepElapsed k) c with
      | none => none
      | some (s, a) => some (ws ++ [{ s := s, a := a, pc := 0, tmp := 0 }])

/-- The four values returned by `run`, and the record of its actions. -/
structure RunResult where
  timing : Int
  flusht : Int
  sleeps : Int
  answer : Int
  events : List Event
deriving DecidableEq

/-- The part of `run` between the two readings `beginTest` and `endTime`: the sums
`sleeps` and `answer` and the actions taken.  `none` when `run` does not get past
it: a panic (in `testBody`, or in `start.Add(conc)` for a negative `conc`), or
`finish.Wait()` never returning because the schedule leaves a goroutine unfinished. -/
def runWorkers (logsSizeMax : Nat) (env : Env) (c : Control) : Option Shared :=
  let conc := c.Concurrent
  if conc = 1 then
    match testBody logsSizeMax (env.sleepElapsed 0) c with
    | none => none
    | some (s, a) =>
      some { sleeps := wrapInt64 (0 + s), answer := wrapInt64 (0 + a), finish := 0,
             events := [Event.workerFinished 0] }
  else if conc < 0 then
    none
  else
    match spawnWorkers logsSizeMax env c conc.toNat with
    | none => none
    | some ws =>
      let r := runSchedule env.schedule ws
        { sleeps := 0, answer := 0, finish := conc, events := [] }
      if r.2.finish = 0 then some r.2 else none

/-- The method `run`. -/
def run (logsSizeMax : Nat) (env : Env) (c : Control) : Option RunResult :=
  let ev0 := [Event.initGlobalTracer c.Trace]
  let beginTest := env.clock 0
  match runWorkers logsSizeMax env c with
  | none => none
  | some sh =>
    let endTime := env.clock 1
    let ev1 := ev0 ++ [Event.now 0] ++ sh.events ++ [Event.now 1]
    if c.Trace then
      some { timing := timeSub endTime beginTest
             flusht := timeSub (env.clock 2) endTime
             sleeps := sh.sleeps
             answer := sh.answer
             events := ev1 ++ [Event.flush, Event.now 2] }
    else
      some { timing := timeSub endTime beginTest
             flusht := 0
             sleeps := sh.sleeps
             answer := sh.answer
             events := ev1 }

/-- A world with a clock that reads `k` at its `k`-th reading, sleeps that take
exactly the requested time, and the given schedule. -/
def exactEnv (schedule : List Nat) : Env :=
  { clock := fun k => k, sleepElapsed := fun _ _ d => d, schedule := schedule }

/-- The specification of the scenario `repeat 3, work 10, numLogs 1, bytesPerLog 5,
sleep 0, sleepInterval 0, concurrency 1, trace false`. -/
def scenarioSpec : Control :=
  { Repeat := 3, Work := 10, NumLogs := 1, BytesPerLog := 5, Sleep := 0, SleepInterval := 0,
    Concurrent := 1, Trace := false, Exit := false }

/-- A specification with sleeps: 7 cycles of 4 ns requested sleep, flush interval 10 ns. -/
def sleepySpec : Control :=
  { Repeat := 7, Work := 2, NumLogs := 1, BytesPerLog := 5, Sleep := 4, SleepInterval := 10,
    Concurrent := 1, Trace := true, Exit := false }

/-- A specification for two workers: one cycle with 5 ns of sleep each. -/
def racySpec : Control :=
  { Repeat := 1, Work := 0, NumLogs := 0, BytesPerLog := 0, Sleep := 5, SleepInterval := 0,
    Concurrent := 2, Trace := true, Exit := false }

/-- The schedule of two goroutines in which each step of goroutine 0 is followed by
the same step of goroutine 1: both load a sum before either stores it. -/
def racySchedule : List Nat := [0, 1, 0, 1, 0, 1, 0, 1, 0, 1]

/-- The schedule in which goroutine 0 takes all its steps before goroutine 1. -/
def serialSchedule : List Nat := [0, 0, 0, 0, 0, 1, 1, 1, 1, 1]

/-! ## `getURL` and `loop` (main.go, lines 55-92) -/

/-- An `http2.Transport` object: how often `CloseIdleConnections` was called on it. -/
structure Transport where
  closeIdleCalls : Nat
deriving DecidableEq

/-- The objects of type `http2.Transport` allocated so far; an address is an index. -/
abbrev Heap := List Transport

/-- The struct `http.Client`: the address of its transport and its timeout. -/
structure HttpClient where
  Transport : Nat
  Timeout : Int
deriving DecidableEq

/-- The struct `httpCollectorClient` (the converter is part of `CollectorEnv`). -/
structure HttpCollectorClient where
  reporterID : Nat
  accessToken : String
  attributes : List (String × String)
  reportTimeout : Int
  url : String
  client : Option HttpClient
deriving DecidableEq

/-- The struct `transportCloser`: it holds an `http2.Transport` by value, here the
address of that object. -/
structure TransportCloser where
  transport : Nat
deriving DecidableEq

/-- The method `transportCloser.Close`: it calls `CloseIdleConnections` on the
transport held by the closer and returns `nil`. -/
def TransportCloser.Close (closer : TransportCloser) (h : Heap) : Heap :=
  h.modify (fun t => { t with closeIdleCalls := t.closeIdleCalls + 1 }) closer.transport

/-- The method `ConnectClient`: `&http2.Transport{}` is a new object, installed in a
new `http.Client`; the returned `&transportCloser{}` is a composite literal without
fields, so the transport it holds is another new, zero-valued object. -/
def ConnectClient (client : HttpCollectorClient) (h : Heap) :
    TransportCloser × HttpCollectorClient × Heap :=
  let transport := h.length
  let h1 := h ++ [{ closeIdleCalls := 0 }]
  let client1 := { client with
    client := some { Transport := transport, Timeout := client.reportTimeout } }
  let closer : TransportCloser := { transport := h1.length }
  let h2 := h1 ++ [{ closeIdleCalls := 0 }]
  (closer, client1, h2)

/-- The method `ShouldReconnect`. -/
def ShouldReconnect (_client : HttpCollectorClient) : Bool := false

/-- The request of `toReportRequest`, before serialization. -/
structure ReportRequest where
  reporterID : Nat
  attributes : List (String × String)
  accessToken : String
  spans : List String
deriving DecidableEq

/-- An `http.Request` as built by `toRequest`. -/
structure HttpRequest where
  method : String
  url : String
  body : List Nat
  contentType : String
deriving DecidableEq

/-- An `http.Response`: the status code, the `Location` header (empty when the
response has none), and what `ioutil.ReadAll` returns for its body. -/
structure HttpResponse where
  StatusCode : Nat
  Location : String
  Body : Except String (List Nat)

/-- The library functions called by the collector client: `proto.Marshal`, the
validation done by `http.NewRequest` (`some e`: it returns the error `e`), one
exchange of a request and a response over the transport (`RoundTrip`), the
resolution `URL.Parse` of a `Location` header against the URL of a request, and
`proto.Unmarshal` into a `collectorpb.ReportResponse` (here its decoded content). -/
structure CollectorEnv where
  marshal : ReportRequest → Except String (List Nat)
  newRequestError : String → String → Option String
  roundTrip : HttpRequest → Except String HttpResponse
  resolveLocation : String → String → Except String String
  unmarshal : List Nat → Except String (List Nat)

def collectorHttpMethod : String := "POST"

def collectorHttpPath : String := "/api/v2/reports"

def collectorHttpContentTypeHeaderValue : String := "application/octet-stream"

/-- The method `toRequest`; the buffer is the list of its span records. -/
def toRequest (env : CollectorEnv) (client : HttpCollectorClient) (buffer : List String) :
    Except String HttpRequest :=
  let protoRequest : ReportRequest :=
    { reporterID := client.reporterID, attributes := client.attributes,
      accessToken := client.accessToken, spans := buffer }
  match env.marshal protoRequest with
  | Except.error err => Except.error err
  | Except.ok buf =>
    match env.newRequestError collectorHttpMethod client.url with
    | some err => Except.error err
    | none =>
      Except.ok { method := collectorHttpMethod, url := client.url, body := buf,
                  contentType := collectorHttpContentTypeHeaderValue }

/-- The method `toResponse`. -/
def toResponse (env : CollectorEnv) (response : HttpResponse) : Except String (List Nat) :=
  match response.Body with
  | Except.error err => Except.error err
  | Except.ok body =>
    match env.unmarshal body with
    | Except.error err => Except.error err
    | Except.ok protoResponse => Except.ok protoResponse

/-- The function `redirectBehavior` of `net/http`, for a first request that
`http.NewRequest` built from a `bytes.Reader` (its `GetBody` is set): `none` when the
response is not followed, else the method of the next request and whether the body
is sent again.  301, 302 and 303 turn a `POST` into a `GET` without body; 307 and 308
with a `Location` keep the method and the body. -/
def redirectBehavior (reqMethod : String) (resp : HttpResponse) : Option (String × Bool) :=
  if resp.StatusCode = 301 ∨ resp.StatusCode = 302 ∨ resp.StatusCode = 303 then
    some (if reqMethod ≠ "GET" ∧ reqMethod ≠ "HEAD" then "GET" else reqMethod, false)
  else if resp.StatusCode = 307 ∨ resp.StatusCode = 308 then
    if resp.Location = "" then none else some (reqMethod, true)
  else
    none

/-- The loop of `http.Client.Do` for a client without `CheckRedirect`, as
`ConnectClient` builds it: `ireq` is the first request, the `Nat` is the number of
requests the default policy still allows (it stops after 10), `sent` are the requests
put on the wire so far.  The result is what `Do` returns and all requests sent. -/
def clientDoLoop (env : CollectorEnv) (ireq : HttpRequest) :
    Nat → HttpRequest → List HttpRequest → Except String HttpResponse × List HttpRequest
  | 0, _, sent => (Except.error "stopped after 10 redirects", sent)
  | k + 1, req, sent =>
    match env.roundTrip req with
    | Except.error err => (Except.error err, sent ++ [req])
    | Except.ok resp =>
      match redirectBehavior req.method resp with
      | none => (Except.ok resp, sent ++ [req])
      | some (redirectMethod, includeBody) =>
        if resp.Location = "" then
          (Except.error "response missing Location header", sent ++ [req])
        else
          match env.resolveLocation req.url resp.Location with
          | Except.error err => (Except.error err, sent ++ [req])
          | Except.ok u =>
            clientDoLoop env ireq k
              { method := redirectMethod, url := u,
                body := if includeBody then ireq.body else [],
                contentType := ireq.contentType }
              (sent ++ [req])

/-- The method `http.Client.Do` on the client built by `ConnectClient`: the first
exchange and the redirects it follows. -/
def clientDo (env : CollectorEnv) (req : HttpRequest) :
    Except String HttpResponse × List HttpRequest :=
  clientDoLoop env req 10 req []

/-- What a call of `Report` does: `result` is the pair `(collectorResponse, error)` as
an `Except` (`none`: nil dereference of `client.client`, when `ConnectClient` was not
called), `doCalls` is the number of calls of `client.client.Do`, and `requests` are
the HTTP requests put on the wire. -/
structure ReportOutcome where
  result : Option (Except String (List Nat))
  doCalls : Nat
  requests : List HttpRequest

/-- The method `Report`. -/
def Report (env : CollectorEnv) (client : HttpCollectorClient) (buffer : List String) :
    ReportOutcome :=
  match toRequest env client buffer with
  | Except.error err => ⟨some (Except.error err), 0, []⟩
  | Except.ok httpRequest =>
    match client.client with
    | none => ⟨none, 0, []⟩
    | some _ =>
      match clientDo env httpRequest with
      | (Except.error err, sent) => ⟨some (Except.error err), 1, sent⟩
      | (Except.ok httpResponse, sent) =>
        match toResponse env httpResponse with
        | Except.error err => ⟨some (Except.error err), 1, sent⟩
        | Except.ok response => ⟨some (Except.ok response), 1, sent⟩

/-- A status code of the success class (2xx). -/
def isSuccessStatus (status : Nat) : Prop := 200 ≤ status ∧ status < 300

instance (status : Nat) : Decidable (isSuccessStatus status) := by
  unfold isSuccessStatus; infer_instance

/-- A collector that answers every request with status 500 and an empty body, with
codecs that accept every input (the empty input decodes to the empty message). -/
def failingCollector : CollectorEnv :=
  { marshal := fun _ => Except.ok []
    newRequestError := fun _ _ => none
    roundTrip := fun _ => Except.ok { StatusCode := 500, Location := "", Body := Except.ok [] }
    resolveLocation := fun _ loc => Except.ok loc
    unmarshal := fun body => Except.ok body }

/-- A collector that answers the report path with status 307 and the `Location` of
another path, and every other request with status 200 and an empty body. -/
def redirectingCollector : CollectorEnv :=
  { marshal := fun _ => Except.ok []
    newRequestError := fun _ _ => none
    roundTrip := fun req =>
      if req.url = "https://collector:443/api/v2/reports" then
        Except.ok { StatusCode := 307, Location := "https://collector:443/moved",
                    Body := Except.ok [] }
      else
        Except.ok { StatusCode := 200, Location := "", Body := Except.ok [] }
    resolveLocation := fun _ loc => Except.ok loc
    unmarshal := fun body => Except.ok body }

/-- A client as `newHttpCollectorClient` builds it, before `ConnectClient`. -/
def newClient : HttpCollectorClient :=
  { reporterID := 1, accessToken := "token", attributes := [], reportTimeout := 30,
    url := "https://collector:443/api/v2/reports", client := none }

/-- The client `newClient` after `ConnectClient`, in an empty heap. -/
def connectedClient : HttpCollectorClient := (ConnectClient newClient []).2.1

/-! ## Lemmas on machine integers and on `work` -/

theorem wrapInt64_isInt64 (z : Int) : isInt64 (wrapInt64 z) := by
  unfold isInt64 wrapInt64; omega

theorem wrapInt64_of_isInt64 {z : Int} (h : isInt64 z) : wrapInt64 z = z := by
  unfold isInt64 at h; unfold wrapInt64; omega

theorem wrapInt64_emod (z : Int) : wrapInt64 z % 2 ^ 64 = z % 2 ^ 64 := by
  unfold wrapInt64; omega

theorem wrapInt64_congr {a b : Int} (h : a % 2 ^ 64 = b % 2 ^ 64) :
    wrapInt64 a = wrapInt64 b := by
  unfold wrapInt64; omega

theorem wrapInt64_mul_left (a b : Int) : wrapInt64 (wrapInt64 a * b) = wrapInt64 (a * b) := by
  apply wrapInt64_congr
  rw [Int.mul_emod, wrapInt64_emod, ← Int.mul_emod]

theorem wrapInt64_parity (z : Int) : wrapInt64 z % 2 = z % 2 := by
  unfold wrapInt64; omega

theorem primeWork_isInt64 : isInt64 primeWork := by
  unfold isInt64 primeWork; omega

theorem workLoop_zero (x : Int) (m : Nat) : workLoop x 0 m = (x, m) := by
  rw [workLoop]; simp

theorem workLoop_succ (x : Int) (k m : Nat) (hk : (k : Int) + 1 < 2 ^ 63) :
    workLoop x ((k : Int) + 1) m = workLoop (wrapInt64 (x * primeWork)) k (m + 1) := by
  rw [workLoop]
  have h1 : ((k : Int) + 1) ≠ 0 := by omega
  have h2 : wrapInt64 ((k : Int) + 1 - 1) = k := by
    have e : (k : Int) + 1 - 1 = k := by omega
    rw [e]
    apply wrapInt64_of_isInt64; unfold isInt64; omega
  rw [if_pos h1, h2]

theorem workLoop_nat (k : Nat) : ∀ (x : Int) (m : Nat), isInt64 x → (k : Int) < 2 ^ 63 →
    workLoop x k m = (wrapInt64 (x * primeWork ^ k), m + k) := by
  induction k with
  | zero =>
    intro x m hx _
    simp only [Nat.cast_zero, pow_zero, mul_one, Nat.add_zero]
    rw [workLoop_zero, wrapInt64_of_isInt64 hx]
  | succ k ih =>
    intro x m _ hk
    have hk1 : (k : Int) + 1 < 2 ^ 63 := by push_cast at hk; exact hk
    have e1 : x * primeWork * primeWork ^ k = x * primeWork ^ (k + 1) := by ring
    rw [Nat.cast_succ, workLoop_succ x k m hk1,
      ih _ _ (wrapInt64_isInt64 _) (by omega), wrapInt64_mul_left, e1,
      Nat.add_assoc, Nat.add_comm 1 k]

theorem workRun_nat (k : Nat) (hk : (k : Int) < 2 ^ 63) :
    workRun k = (wrapInt64 (primeWork ^ (k + 1)), k) := by
  unfold workRun
  have e1 : primeWork * primeWork ^ k = primeWork ^ (k + 1) := by ring
  rw [workLoop_nat k primeWork 0 primeWork_isInt64 hk, e1, Nat.zero_add]

theorem workLoop_odd (x n : Int) (m : Nat) (hx : x % 2 = 1) : (workLoop x n m).1 % 2 = 1 := by
  induction x, n, m using workLoop.induct with
  | case1 x n m hn ih =>
    rw [workLoop, if_pos hn]
    apply ih
    rw [wrapInt64_parity, Int.mul_emod, hx]
    unfold primeWork; decide
  | case2 x n m hn =>
    rw [workLoop, if_neg hn]
    exact hx

theorem workLoop_isInt64 (x n : Int) (m : Nat) (hx : isInt64 x) :
    isInt64 (workLoop x n m).1 := by
  induction x, n, m using workLoop.induct with
  | case1 x n m hn ih =>
    rw [workLoop, if_pos hn]
    exact ih (wrapInt64_isInt64 _)
  | case2 x n m hn =>
    rw [workLoop, if_neg hn]
    exact hx

theorem work_odd (n : Int) : work n % 2 = 1 :=
  workLoop_odd primeWork n 0 (by unfold primeWork; decide)

theorem work_isInt64 (n : Int) : isInt64 (work n) :=
  workLoop_isInt64 primeWork n 0 primeWork_isInt64

theorem work_ne_zero (n : Int) : work n ≠ 0 := by
  intro h
  have := work_odd n
  rw [h] at this
  exact absurd this (by decide)

/-! ## Lemmas on `testBody` -/

theorem wrapInt64_add_left (a b : Int) : wrapInt64 (wrapInt64 a + b) = wrapInt64 (a + b) := by
  unfold wrapInt64; omega

theorem logPayloadStr_length (n : Nat) : (logPayloadStr n).length = n := by
  simp [logPayloadStr]

theorem logLoop_some (logsSizeMax : Nat) (c : Control) (k : Nat) :
    ∀ logs, (k = 0 ∨ (0 ≤ c.BytesPerLog ∧ c.BytesPerLog ≤ (logsSizeMax : Int))) →
      ∃ span, logLoop logsSizeMax c k logs = some span := by
  induction k with
  | zero => intro logs _; exact ⟨logs, rfl⟩
  | succ k ih =>
    intro logs h
    have hb : 0 ≤ c.BytesPerLog ∧ c.BytesPerLog ≤ (logsSizeMax : Int) := by
      rcases h with h | h
      · omega
      · exact h
    simp only [logLoop, sliceTo, logPayloadStr_length, if_pos hb]
    exact ih _ (Or.inr hb)

theorem logLoop_none (logsSizeMax : Nat) (c : Control) (k : Nat) (logs : List (List Char))
    (hb : ¬ (0 ≤ c.BytesPerLog ∧ c.BytesPerLog ≤ (logsSizeMax : Int))) :
    logLoop logsSizeMax c (k + 1) logs = none := by
  simp only [logLoop, sliceTo, logPayloadStr_length, if_neg hb]

/-- What a cycle that does not panic leaves in the state. -/
theorem testBodyCycle_spec {logsSizeMax : Nat} {el : Nat → Int → Int} {c : Control}
    {st st1 : BodyState} (h : testBodyCycle logsSizeMax el c st = some st1) :
    st1.answer = work c.Work ∧
    (wrapInt64 (st.sleep_debt + c.Sleep) ≤ c.SleepInterval →
      st1.sleep_debt = wrapInt64 (st.sleep_debt + c.Sleep) ∧
      st1.totalSleep = st.totalSleep ∧ st1.sleepCalls = st.sleepCalls) ∧
    (¬ wrapInt64 (st.sleep_debt + c.Sleep) ≤ c.SleepInterval →
      st1.sleep_debt = wrapInt64 (wrapInt64 (st.sleep_debt + c.Sleep) -
        el st.sleepCalls.length (wrapInt64 (st.sleep_debt + c.Sleep))) ∧
      st1.totalSleep = wrapInt64 (st.totalSleep +
        el st.sleepCalls.length (wrapInt64 (st.sleep_debt + c.Sleep))) ∧
      st1.sleepCalls = st.sleepCalls ++ [(wrapInt64 (st.sleep_debt + c.Sleep),
        el st.sleepCalls.length (wrapInt64 (st.sleep_debt + c.Sleep)))]) := by
  unfold testBodyCycle at h
  split at h
  · exact absurd h (by simp)
  · by_cases hd : wrapInt64 (st.sleep_debt + c.Sleep) ≤ c.SleepInterval
    · simp only [if_pos hd, Option.some.injEq] at h
      subst h
      exact ⟨rfl, fun _ => ⟨rfl, rfl, rfl⟩, fun hn => absurd hd hn⟩
    · simp only [if_neg hd, Option.some.injEq] at h
      subst h
      exact ⟨rfl, fun hn => absurd hn hd, fun _ => ⟨rfl, rfl, rfl⟩⟩

theorem testBodyCycle_some (logsSizeMax : Nat) (el : Nat → Int → Int) (c : Control)
    (st : BodyState)
    (h : c.NumLogs ≤ 0 ∨ (0 ≤ c.BytesPerLog ∧ c.BytesPerLog ≤ (logsSizeMax : Int))) :
    ∃ st1, testBodyCycle logsSizeMax el c st = some st1 := by
  have hk : c.NumLogs.toNat = 0 ∨ (0 ≤ c.BytesPerLog ∧ c.BytesPerLog ≤ (logsSizeMax : Int)) := by
    rcases h with h | h
    · left; omega
    · right; exact h
  obtain ⟨span, hs⟩ := logLoop_some logsSizeMax c c.NumLogs.toNat [] hk
  unfold testBodyCycle
  rw [hs]
  by_cases hd : wrapInt64 (st.sleep_debt + c.Sleep) ≤ c.SleepInterval
  · simp only [if_pos hd]; exact ⟨_, rfl⟩
  · simp only [if_neg hd]; exact ⟨_, rfl⟩

theorem testBodyCycle_none (logsSizeMax : Nat) (el : Nat → Int → Int) (c : Control)
    (st : BodyState) (h1 : 0 < c.NumLogs)
    (h2 : ¬ (0 ≤ c.BytesPerLog ∧ c.BytesPerLog ≤ (logsSizeMax : Int))) :
    testBodyCycle logsSizeMax el c st = none := by
  obtain ⟨k, hk⟩ : ∃ k, c.NumLogs.toNat = k + 1 := ⟨c.NumLogs.toNat - 1, by omega⟩
  unfold testBodyCycle
  rw [hk, logLoop_none logsSizeMax c k [] h2]

theorem testBodyLoop_some (logsSizeMax : Nat) (el : Nat → Int → Int) (c : Control)
    (k : Nat) : ∀ st,
    (k = 0 ∨ c.NumLogs ≤ 0 ∨ (0 ≤ c.BytesPerLog ∧ c.BytesPerLog ≤ (logsSizeMax : Int))) →
      ∃ st1, testBodyLoop logsSizeMax el c k st = some st1 := by
  induction k with
  | zero => intro st _; exact ⟨st, rfl⟩
  | succ k ih =>
    intro st h
    have hb : c.NumLogs ≤ 0 ∨ (0 ≤ c.BytesPerLog ∧ c.BytesPerLog ≤ (logsSizeMax : Int)) := by
      rcases h with h | h
      · omega
      · exact h
    obtain ⟨st1, h1⟩ := testBodyCycle_some logsSizeMax el c st hb
    simp only [testBodyLoop, h1]
    exact ih st1 (Or.inr hb)

/-- `testBody` returns exactly when no slice bound is out of range. -/
theorem testBodyState_isSome_iff (logsSizeMax : Nat) (el : Nat → Int → Int) (c : Control) :
    (∃ st, testBodyState logsSizeMax el c = some st) ↔ payloadOk logsSizeMax c := by
  unfold testBodyState payloadOk
  constructor
  · rintro ⟨st, h⟩
    by_contra hn
    obtain ⟨k, hk⟩ : ∃ k, c.Repeat.toNat = k + 1 := ⟨c.Repeat.toNat - 1, by omega⟩
    rw [hk] at h
    have hc := testBodyCycle_none logsSizeMax el c BodyState.init (by omega) (by tauto)
    simp [testBodyLoop, hc] at h
  · intro h
    apply testBodyLoop_some
    rcases h with h | h
    · left; omega
    · right; exact h

/-- An invariant of the cycles holds at the `return`. -/
theorem testBodyLoop_invariant (logsSizeMax : Nat) (el : Nat → Int → Int) (c : Control)
    (P : Nat → BodyState → Prop)
    (hstep : ∀ j st st1, P j st → testBodyCycle logsSizeMax el c st = some st1 → P (j + 1) st1)
    (k : Nat) : ∀ j st st1, P j st → testBodyLoop logsSizeMax el c k st = some st1 →
      P (j + k) st1 := by
  induction k with
  | zero =>
    intro j st st1 hP h
    simp only [testBodyLoop, Option.some.injEq] at h
    subst h
    exact hP
  | succ k ih =>
    intro j st st1 hP h
    simp only [testBodyLoop] at h
    split at h
    · exact absurd h (by simp)
    · rename_i st2 h2
      have := ih (j + 1) st2 st1 (hstep j st st2 hP h2) h
      rw [Nat.add_assoc, Nat.add_comm 1 k] at this
      exact this

theorem testBodyState_answer {logsSizeMax : Nat} {el : Nat → Int → Int} {c : Control}
    {st : BodyState} (h : testBodyState logsSizeMax el c = some st) :
    (1 ≤ c.Repeat → st.answer = work c.Work) ∧ (c.Repeat ≤ 0 → st.answer = 0) := by
  have key := testBodyLoop_invariant logsSizeMax el c
    (fun j st => (0 < j → st.answer = work c.Work) ∧ (j = 0 → st.answer = 0))
    (fun j st st1 _ hc => ⟨fun _ => (testBodyCycle_spec hc).1, fun h0 => by omega⟩)
    c.Repeat.toNat 0 BodyState.init st
    ⟨fun h0 => by omega, fun _ => rfl⟩ h
  rw [Nat.zero_add] at key
  exact ⟨fun h1 => key.1 (by omega), fun h0 => key.2 (by omega)⟩

theorem testBodyState_totalSleep {logsSizeMax : Nat} {el : Nat → Int → Int} {c : Control}
    {st : BodyState} (h : testBodyState logsSizeMax el c = some st) :
    st.totalSleep = wrapInt64 (st.sleepCalls.map Prod.snd).sum := by
  refine testBodyLoop_invariant logsSizeMax el c
    (fun _ st => st.totalSleep = wrapInt64 (st.sleepCalls.map Prod.snd).sum)
    ?_ c.Repeat.toNat 0 BodyState.init st rfl h
  intro j st0 st1 hP hc
  obtain ⟨_, h1, h2⟩ := testBodyCycle_spec hc
  by_cases hd : wrapInt64 (st0.sleep_debt + c.Sleep) ≤ c.SleepInterval
  · obtain ⟨_, e2, e3⟩ := h1 hd
    rw [e2, e3]; exact hP
  · obtain ⟨_, e2, e3⟩ := h2 hd
    rw [e2, e3, hP, wrapInt64_add_left]
    simp

theorem testBodyState_refines {logsSizeMax : Nat} {el : Nat → Int → Int} {c : Control}
    {st : BodyState} (h : testBodyState logsSizeMax el c = some st) :
    (st.sleep_debt, st.sleepCalls) =
      specSleepRun c.Sleep c.SleepInterval el c.Repeat.toNat := by
  have key := testBodyLoop_invariant logsSizeMax el c
    (fun j st => (st.sleep_debt, st.sleepCalls) = specSleepRun c.Sleep c.SleepInterval el j)
    ?_ c.Repeat.toNat 0 BodyState.init st rfl h
  · rw [Nat.zero_add] at key; exact key
  · intro j st0 st1 hP hc
    obtain ⟨_, h1, h2⟩ := testBodyCycle_spec hc
    unfold specSleepRun at hP ⊢
    rw [Function.iterate_succ_apply', ← hP]
    unfold specSleepCycle
    by_cases hd : wrapInt64 (st0.sleep_debt + c.Sleep) ≤ c.SleepInterval
    · obtain ⟨e1, _, e3⟩ := h1 hd
      have hn : ¬ wrapInt64 (st0.sleep_debt + c.Sleep) > c.SleepInterval := by omega
      simp only [if_neg hn, e1, e3]
    · obtain ⟨e1, _, e3⟩ := h2 hd
      have hn : wrapInt64 (st0.sleep_debt + c.Sleep) > c.SleepInterval := by omega
      simp only [if_pos hn, e1, e3]

theorem testBodyState_no_sleep {logsSizeMax : Nat} {el : Nat → Int → Int} {c : Control}
    {st : BodyState} (h : testBodyState logsSizeMax el c = some st)
    (hS : c.Sleep = 0) (hI : 0 ≤ c.SleepInterval) :
    st.sleepCalls = [] ∧ st.totalSleep = 0 := by
  have key := testBodyLoop_invariant logsSizeMax el c
    (fun _ st => st.sleep_debt = 0 ∧ st.sleepCalls = [] ∧ st.totalSleep = 0)
    ?_ c.Repeat.toNat 0 BodyState.init st ⟨rfl, rfl, rfl⟩ h
  · exact key.2
  · intro j st0 st1 hP hc
    obtain ⟨_, h1, _⟩ := testBodyCycle_spec hc
    have hd : wrapInt64 (st0.sleep_debt + c.Sleep) = 0 := by
      rw [hP.1, hS]; unfold wrapInt64; omega
    obtain ⟨e1, e2, e3⟩ := h1 (by rw [hd]; exact hI)
    exact ⟨by rw [e1, hd], by rw [e3, hP.2.1], by rw [e2, hP.2.2]⟩

theorem wrapInt64_le_self {z : Int} (h : -2 ^ 63 ≤ z) : wrapInt64 z ≤ z := by
  unfold wrapInt64; omega

/-- With sleeps that last at least as long as requested, `k` sleeps need more than
`k` flush intervals of requested sleep. -/
theorem testBodyState_sleeps_mul_le {logsSizeMax : Nat} {el : Nat → Int → Int} {c : Control}
    {st : BodyState} (h : testBodyState logsSizeMax el c = some st)
    (hI : 0 < c.SleepInterval) (hS : 0 ≤ c.Sleep)
    (hel : ∀ k d, d < 2 ^ 63 → d ≤ el k d ∧ el k d < 2 ^ 63) :
    (st.sleepCalls.length : Int) * c.SleepInterval ≤ (c.Repeat.toNat : Int) * c.Sleep := by
  have key := testBodyLoop_invariant logsSizeMax el c
    (fun j st => -2 ^ 63 ≤ st.sleep_debt ∧
      st.sleep_debt + (st.sleepCalls.length : Int) * c.SleepInterval ≤ (j : Int) * c.Sleep ∧
      (st.sleepCalls.length : Int) * c.SleepInterval ≤ (j : Int) * c.Sleep)
    ?_ c.Repeat.toNat 0 BodyState.init st ?_ h
  · rw [Nat.zero_add] at key; exact key.2.2
  · intro j st0 st1 hP hc
    obtain ⟨hr, hb, hk⟩ := hP
    obtain ⟨_, h1, h2⟩ := testBodyCycle_spec hc
    have hw := wrapInt64_isInt64 (st0.sleep_debt + c.Sleep)
    have hle : wrapInt64 (st0.sleep_debt + c.Sleep) ≤ st0.sleep_debt + c.Sleep :=
      wrapInt64_le_self (by omega)
    unfold isInt64 at hw
    have hj : ((j + 1 : Nat) : Int) * c.Sleep = (j : Int) * c.Sleep + c.Sleep := by
      push_cast; ring
    rw [hj]
    by_cases hd : wrapInt64 (st0.sleep_debt + c.Sleep) ≤ c.SleepInterval
    · obtain ⟨e1, _, e3⟩ := h1 hd
      rw [e1, e3]
      refine ⟨hw.1, by linarith, by linarith⟩
    · obtain ⟨e1, _, e3⟩ := h2 hd
      obtain ⟨g1, g2⟩ := hel st0.sleepCalls.length _ hw.2
      have hdebt : st1.sleep_debt ≤ 0 ∧ -2 ^ 63 ≤ st1.sleep_debt := by
        rw [e1]
        have := wrapInt64_isInt64 (wrapInt64 (st0.sleep_debt + c.Sleep) -
          el st0.sleepCalls.length (wrapInt64 (st0.sleep_debt + c.Sleep)))
        unfold isInt64 at this
        refine ⟨?_, this.1⟩
        have hin : isInt64 (wrapInt64 (st0.sleep_debt + c.Sleep) -
            el st0.sleepCalls.length (wrapInt64 (st0.sleep_debt + c.Sleep))) := by
          unfold isInt64; omega
        rw [wrapInt64_of_isInt64 hin]
        omega
      have hlen : ((st1.sleepCalls.length : Nat) : Int) * c.SleepInterval =
          (st0.sleepCalls.length : Int) * c.SleepInterval + c.SleepInterval := by
        rw [e3]; simp only [List.length_append, List.length_singleton]; push_cast; ring
      rw [hlen]
      refine ⟨hdebt.2, by linarith [hdebt.1], by linarith⟩
  · refine ⟨by simp [BodyState.init], by simp [BodyState.init], by simp [BodyState.init]⟩

theorem run_single_eq (logsSizeMax : Nat) (env : Env) (c : Control) (hc : c.Concurrent = 1) :
    runWorkers logsSizeMax env c =
      (testBody logsSizeMax (env.sleepElapsed 0) c).map fun p =>
        { sleeps := wrapInt64 (0 + p.1), answer := wrapInt64 (0 + p.2), finish := 0,
          events := [Event.workerFinished 0] } := by
  unfold runWorkers
  simp only [hc, if_true]
  cases testBody logsSizeMax (env.sleepElapsed 0) c with
  | none => rfl
  | some p => rfl

theorem testBodyState_isInt64 {logsSizeMax : Nat} {el : Nat → Int → Int} {c : Control}
    {st : BodyState} (h : testBodyState logsSizeMax el c = some st) :
    isInt64 st.totalSleep ∧ isInt64 st.answer := by
  refine ⟨?_, ?_⟩
  · rw [testBodyState_totalSleep h]; exact wrapInt64_isInt64 _
  · obtain ⟨h1, h0⟩ := testBodyState_answer h
    by_cases hr : 1 ≤ c.Repeat
    · rw [h1 hr]; exact work_isInt64 _
    · rw [h0 (by omega)]; unfold isInt64; omega

/-- With `Concurrent = 1`, `run` returns exactly when `testBody` does, with the
sums of `testBody` unchanged. -/
theorem run_single (logsSizeMax : Nat) (env : Env) (c : Control) (hc : c.Concurrent = 1) :
    (testBodyState logsSizeMax (env.sleepElapsed 0) c = none →
      run logsSizeMax env c = none) ∧
    (∀ st, testBodyState logsSizeMax (env.sleepElapsed 0) c = some st →
      ∃ r, run logsSizeMax env c = some r ∧ r.answer = st.answer ∧
        r.sleeps = st.totalSleep) := by
  constructor
  · intro h
    unfold run
    simp only [run_single_eq logsSizeMax env c hc, testBody, h, Option.map_none']
  · intro st h
    obtain ⟨i1, i2⟩ := testBodyState_isInt64 h
    unfold run
    simp only [run_single_eq logsSizeMax env c hc, testBody, h, Option.map_some']
    cases c.Trace
    · refine ⟨_, rfl, ?_, ?_⟩
      · simp only [Int.zero_add]; exact wrapInt64_of_isInt64 i2
      · simp only [Int.zero_add]; exact wrapInt64_of_isInt64 i1
    · refine ⟨_, rfl, ?_, ?_⟩
      · simp only [Int.zero_add]; exact wrapInt64_of_isInt64 i2
      · simp only [Int.zero_add]; exact wrapInt64_of_isInt64 i1

/-! ## Lemmas on the goroutines of `run` -/

theorem iterate_mul_eq (k : Nat) :
    Nat.iterate (fun x => wrapInt64 (x * primeWork)) k primeWork =
      wrapInt64 (primeWork ^ (k + 1)) := by
  induction k with
  | zero =>
    simp only [Function.iterate_zero, id_eq, Nat.zero_add, pow_one]
    exact (wrapInt64_of_isInt64 primeWork_isInt64).symm
  | succ k ih =>
    rw [Function.iterate_succ_apply', ih, wrapInt64_mul_left, ← pow_succ]

/-- C9: for every `int64` value `n ≥ 0`, `work n` returns after exactly `n` executions
of `x *= primeWork`; its result is 982451653 multiplied `n` times by 982451653 with a
wrap after every product, which is the `int64` value congruent to `982451653 ^ (n + 1)`
modulo `2 ^ 64`; and `work 0 = 982451653`. -/
theorem work_closed_form (n : Int) (h0 : 0 ≤ n) (h1 : n < 2 ^ 63) :
    workRun n = (wrapInt64 (982451653 ^ (n.toNat + 1)), n.toNat) ∧
    work n = Nat.iterate (fun x => wrapInt64 (x * 982451653)) n.toNat 982451653 ∧
    isInt64 (work n) ∧
    work n % 2 ^ 64 = 982451653 ^ (n.toNat + 1) % 2 ^ 64 ∧
    work 0 = 982451653 := by
  have hn : ((n.toNat : Nat) : Int) = n := Int.toNat_of_nonneg h0
  have hr : workRun n = (wrapInt64 (primeWork ^ (n.toNat + 1)), n.toNat) := by
    have := workRun_nat n.toNat (by rw [hn]; exact h1)
    rw [hn] at this
    exact this
  have hw : work n = wrapInt64 (primeWork ^ (n.toNat + 1)) := by
    unfold work; rw [hr]
  refine ⟨hr, ?_, work_isInt64 n, ?_, ?_⟩
  · rw [hw]; exact (iterate_mul_eq n.toNat).symm
  · rw [hw, wrapInt64_emod]; rfl
  · unfold work workRun
    rw [workLoop_zero]; rfl

/-- Witness of C9 at `n = 10`: ten multiplications, result `-7439087972990041059`. -/
theorem work_closed_form_witness :
    (0 : Int) ≤ 10 ∧ (10 : Int) < 2 ^ 63 ∧ workRun 10 = (-7439087972990041059, 10) := by
  refine ⟨by decide, by decide, ?_⟩
  rw [(work_closed_form 10 (by decide) (by decide)).1]
  decide

/-- C10: `work n` is odd, hence not zero, for every `n`; and a run with one worker that
does not panic and makes at least one cycle returns a checksum that is not zero. -/
theorem work_never_zero :
    (∀ n : Int, work n % 2 = 1 ∧ isInt64 (work n) ∧ work n ≠ 0) ∧
    (∀ (logsSizeMax : Nat) (env : Env) (c : Control),
      c.Concurrent = 1 → 1 ≤ c.Repeat → payloadOk logsSizeMax c →
      ∃ r, run logsSizeMax env c = some r ∧ r.answer ≠ 0) := by
  refine ⟨fun n => ⟨work_odd n, work_isInt64 n, work_ne_zero n⟩, ?_⟩
  intro logsSizeMax env c hc hr hp
  obtain ⟨st, hst⟩ := (testBodyState_isSome_iff logsSizeMax (env.sleepElapsed 0) c).2 hp
  obtain ⟨r, h1, h2, _⟩ := (run_single logsSizeMax env c hc).2 st hst
  refine ⟨r, h1, ?_⟩
  rw [h2, (testBodyState_answer hst).1 hr]
  exact work_ne_zero _

/-- Witness of C10: the scenario specification, with a payload of 64 bytes. -/
theorem work_never_zero_witness :
    scenarioSpec.Concurrent = 1 ∧ 1 ≤ scenarioSpec.Repeat ∧ payloadOk 64 scenarioSpec ∧
    work 10 % 2 = 1 ∧
    ∃ r, run 64 (exactEnv []) scenarioSpec = some r ∧ r.answer ≠ 0 :=
  ⟨by decide, by decide, by decide, (work_never_zero.1 10).1,
    work_never_zero.2 64 (exactEnv []) scenarioSpec (by decide) (by decide) (by decide)⟩

/-! ## The workload executor and the coordinator with one worker -/

/-- C1: with `Concurrent = 1` the checksum returned by `run` is the answer returned by
`testBody` (and `run` returns exactly when `testBody` does, which is when no slice
bound is out of range); that answer is `work Work` as soon as `Repeat ≥ 1`, whatever
`Repeat` is, and `0` when no cycle runs. -/
theorem run_single_checksum (logsSizeMax : Nat) (env : Env) (c : Control)
    (hc : c.Concurrent = 1) :
    (run logsSizeMax env c).map (fun r => r.answer) =
      (testBody logsSizeMax (env.sleepElapsed 0) c).map Prod.snd ∧
    ((∃ r, run logsSizeMax env c = some r) ↔ payloadOk logsSizeMax c) ∧
    (∀ r, run logsSizeMax env c = some r →
      (1 ≤ c.Repeat → r.answer = work c.Work) ∧ (c.Repeat ≤ 0 → r.answer = 0)) := by
  obtain ⟨hnone, hsome⟩ := run_single logsSizeMax env c hc
  have hiff := testBodyState_isSome_iff logsSizeMax (env.sleepElapsed 0) c
  cases hst : testBodyState logsSizeMax (env.sleepElapsed 0) c with
  | none =>
    have hrun := hnone hst
    refine ⟨?_, ?_, ?_⟩
    · simp [hrun, testBody, hst]
    · rw [← hiff, hrun, hst]; simp
    · intro r h; rw [hrun] at h; exact absurd h (by simp)
  | some st =>
    obtain ⟨r, h1, h2, _⟩ := hsome st hst
    refine ⟨?_, ?_, ?_⟩
    · simp [h1, testBody, hst, h2]
    · rw [← hiff]; exact ⟨fun _ => ⟨st, hst⟩, fun _ => ⟨r, h1⟩⟩
    · intro r1 h
      rw [h1] at h
      cases h
      rw [h2]
      exact testBodyState_answer hst

/-- Witness of C1: the scenario `repeat 3, work 10, concurrency 1, trace false`
returns the checksum `work 10`. -/
theorem run_single_checksum_witness :
    scenarioSpec.Concurrent = 1 ∧
    ∃ r, run 64 (exactEnv []) scenarioSpec = some r ∧ r.answer = work 10 := by
  have h := run_single_checksum 64 (exactEnv []) scenarioSpec (by decide)
  obtain ⟨r, hr⟩ := h.2.1.2 (by decide)
  exact ⟨by decide, r, hr, (h.2.2 r hr).1 (by decide)⟩

/-! ## Sleep debt -/

/-- C2: with a positive flush interval, a non-negative sleep per cycle and sleeps that
last at least as long as requested (measured as an `int64` duration), a run of
`testBody` that returns has made at most `⌈S / SleepInterval⌉` calls of `time.Sleep`,
`S` being the sum of the requested sleeps of its cycles; `S` is `Repeat * Sleep` for a
specification, whose `Repeat` is not negative. -/
theorem sleep_calls_bound (logsSizeMax : Nat) (el : Nat → Int → Int) (c : Control)
    (hI : 0 < c.SleepInterval) (hS : 0 ≤ c.Sleep)
    (hel : ∀ k d, d < 2 ^ 63 → d ≤ el k d ∧ el k d < 2 ^ 63)
    (hp : payloadOk logsSizeMax c) :
    ∃ st, testBodyState logsSizeMax el c = some st ∧
      (st.sleepCalls.length : Int) ≤
        ⌈(((c.Repeat.toNat : Int) * c.Sleep : Int) : ℚ) / (c.SleepInterval : ℚ)⌉ ∧
      (0 ≤ c.Repeat → (st.sleepCalls.length : Int) ≤
        ⌈((c.Repeat * c.Sleep : Int) : ℚ) / (c.SleepInterval : ℚ)⌉) := by
  obtain ⟨st, hst⟩ := (testBodyState_isSome_iff logsSizeMax el c).2 hp
  have hmul := testBodyState_sleeps_mul_le hst hI hS hel
  have hIq : (0 : ℚ) < (c.SleepInterval : ℚ) := by exact_mod_cast hI
  have hb : (st.sleepCalls.length : Int) ≤
      ⌈(((c.Repeat.toNat : Int) * c.Sleep : Int) : ℚ) / (c.SleepInterval : ℚ)⌉ := by
    have hq : ((st.sleepCalls.length : Int) : ℚ) ≤
        (((c.Repeat.toNat : Int) * c.Sleep : Int) : ℚ) / (c.SleepInterval : ℚ) := by
      rw [le_div_iff₀ hIq]
      exact_mod_cast hmul
    exact_mod_cast le_trans hq (Int.le_ceil _)
  refine ⟨st, hst, hb, ?_⟩
  intro hR
  have e : ((c.Repeat.toNat : Nat) : Int) = c.Repeat := Int.toNat_of_nonneg hR
  rw [e] at hb
  exact hb

/-- Witness of C2: 7 cycles of 4 ns with a flush interval of 10 ns and exact sleeps. -/
theorem sleep_calls_bound_witness :
    0 < sleepySpec.SleepInterval ∧ 0 ≤ sleepySpec.Sleep ∧ payloadOk 64 sleepySpec ∧
    ∃ st, testBodyState 64 (fun _ d => d) sleepySpec = some st ∧
      (st.sleepCalls.length : Int) ≤ ⌈(((7 : Int) * 4 : Int) : ℚ) / ((10 : Int) : ℚ)⌉ := by
  obtain ⟨st, h1, h2, _⟩ := sleep_calls_bound 64 (fun _ d => d) sleepySpec
    (by decide) (by decide) (fun _ d hd => ⟨le_refl d, hd⟩) (by decide)
  exact ⟨by decide, by decide, by decide, st, h1, h2⟩

/-- C3: a run of `testBody` that returns has followed the sleep-debt rule of the
specification in every cycle (its debt and its sleeps, each with the requested and the
measured duration, are those of `specSleepRun`); the total sleep it returns is the
`int64` sum of the measured durations, the exact sum when that fits `int64`; and with
`Sleep = 0` and `SleepInterval ≥ 0` it does not sleep and returns total sleep 0. -/
theorem sleep_debt_rule (logsSizeMax : Nat) (el : Nat → Int → Int) (c : Control)
    (hp : payloadOk logsSizeMax c) :
    ∃ st, testBodyState logsSizeMax el c = some st ∧
      testBody logsSizeMax el c = some (st.totalSleep, st.answer) ∧
      (st.sleep_debt, st.sleepCalls) =
        specSleepRun c.Sleep c.SleepInterval el c.Repeat.toNat ∧
      st.totalSleep = wrapInt64 (st.sleepCalls.map Prod.snd).sum ∧
      (isInt64 (st.sleepCalls.map Prod.snd).sum →
        st.totalSleep = (st.sleepCalls.map Prod.snd).sum) ∧
      (c.Sleep = 0 → 0 ≤ c.SleepInterval → st.sleepCalls = [] ∧ st.totalSleep = 0) := by
  obtain ⟨st, hst⟩ := (testBodyState_isSome_iff logsSizeMax el c).2 hp
  refine ⟨st, hst, ?_, testBodyState_refines hst, testBodyState_totalSleep hst, ?_, ?_⟩
  · simp [testBody, hst]
  · intro hin
    rw [testBodyState_totalSleep hst, wrapInt64_of_isInt64 hin]
  · exact fun hS hI => testBodyState_no_sleep hst hS hI

/-! ## The coordinator -/

theorem work_zero : work 0 = 982451653 := by
  unfold work workRun
  rw [workLoop_zero]; rfl

theorem testBody_racySpec (el : Nat → Int → Int) (hel : el 0 5 = 5) :
    testBody 0 el racySpec = some (5, 982451653) := by
  have w5 : wrapInt64 5 = 5 := by decide
  have w0 : wrapInt64 0 = 0 := by decide
  simp [testBody, testBodyState, testBodyLoop, testBodyCycle, logLoop, racySpec, work_zero,
    BodyState.init, hel, w5, w0]

theorem run_racy :
    run 0 (exactEnv racySchedule) racySpec =
      some { timing := 1, flusht := 1, sleeps := 5, answer := 982451653,
             events := [Event.initGlobalTracer true, Event.now 0, Event.workerFinished 0,
               Event.workerFinished 1, Event.now 1, Event.flush, Event.now 2] } := by
  have h0 := testBody_racySpec ((exactEnv racySchedule).sleepElapsed 0) rfl
  have h1 := testBody_racySpec ((exactEnv racySchedule).sleepElapsed 1) rfl
  have hc : racySpec.Concurrent = 2 := rfl
  have ht : racySpec.Trace = true := rfl
  simp only [run, runWorkers, hc, spawnWorkers, h0, h1, ht]
  decide

theorem run_serial :
    run 0 (exactEnv serialSchedule) racySpec =
      some { timing := 1, flusht := 1, sleeps := 10, answer := 1964903306,
             events := [Event.initGlobalTracer true, Event.now 0, Event.workerFinished 0,
               Event.workerFinished 1, Event.now 1, Event.flush, Event.now 2] } := by
  have h0 := testBody_racySpec ((exactEnv serialSchedule).sleepElapsed 0) rfl
  have h1 := testBody_racySpec ((exactEnv serialSchedule).sleepElapsed 1) rfl
  have hc : racySpec.Concurrent = 2 := rfl
  have ht : racySpec.Trace = true := rfl
  simp only [run, runWorkers, hc, spawnWorkers, h0, h1, ht]
  decide

/-- C7, the code at `Concurrent = 2`: each of the two workers returns the answer
982451653 and 5 ns of sleep.  When goroutine 0 runs before goroutine 1, `run` returns
the sums 1964903306 and 10; when both goroutines load a sum before either stores it,
`run` returns 982451653 and 5, the contribution of one worker only. -/
theorem run_concurrent_lost_update :
    testBody 0 ((exactEnv racySchedule).sleepElapsed 0) racySpec = some (5, 982451653) ∧
    testBody 0 ((exactEnv racySchedule).sleepElapsed 1) racySpec = some (5, 982451653) ∧
    (run 0 (exactEnv serialSchedule) racySpec).map (fun r => (r.sleeps, r.answer)) =
      some (5 + 5, 982451653 + 982451653) ∧
    (run 0 (exactEnv racySchedule) racySpec).map (fun r => (r.sleeps, r.answer)) =
      some (5, 982451653) := by
  refine ⟨testBody_racySpec _ rfl, testBody_racySpec _ rfl, ?_, ?_⟩
  · rw [run_serial]; rfl
  · rw [run_racy]; rfl

/-! ## The collector client -/

theorem clientDoLoop_length (env : CollectorEnv) (ireq : HttpRequest) (k : Nat) :
    ∀ (req : HttpRequest) (sent : List HttpRequest),
      (clientDoLoop env ireq k req sent).2.length ≤ sent.length + k := by
  induction k with
  | zero => intro req sent; simp [clientDoLoop]
  | succ k ih =>
    intro req sent
    simp only [clientDoLoop]
    split
    · simp
    · split
      · simp
      · split
        · simp
        · split
          · simp
          · refine le_trans (ih _ _) ?_
            simp only [List.length_append, List.length_singleton]
            omega

theorem clientDo_error (env : CollectorEnv) (req : HttpRequest) (err : String)
    (h : env.roundTrip req = Except.error err) :
    clientDo env req = (Except.error err, [req]) := by
  simp [clientDo, clientDoLoop, h]

theorem clientDo_final (env : CollectorEnv) (req : HttpRequest) (resp : HttpResponse)
    (h : env.roundTrip req = Except.ok resp) (hr : redirectBehavior req.method resp = none) :
    clientDo env req = (Except.ok resp, [req]) := by
  simp [clientDo, clientDoLoop, h, hr]

theorem redirectBehavior_none (reqMethod : String) (resp : HttpResponse)
    (h : ¬ (300 ≤ resp.StatusCode ∧ resp.StatusCode < 400)) :
    redirectBehavior reqMethod resp = none := by
  unfold redirectBehavior
  rw [if_neg (by omega), if_neg (by omega)]

theorem toResponse_eq (env : CollectorEnv) (resp : HttpResponse) :
    toResponse env resp =
      match resp.Body with
      | Except.error err => Except.error err
      | Except.ok body => env.unmarshal body := by
  unfold toResponse
  cases resp.Body with
  | error e => rfl
  | ok body =>
    simp only
    cases env.unmarshal body <;> rfl

/-- On a connected client whose request was built, `Report` is one call of `Do`
followed by `toResponse`. -/
theorem Report_connected (env : CollectorEnv) (client : HttpCollectorClient)
    (buffer : List String) (req : HttpRequest) (conn : HttpClient)
    (h1 : toRequest env client buffer = Except.ok req) (h2 : client.client = some conn) :
    Report env client buffer =
      ⟨some (match (clientDo env req).1 with
          | Except.error err => Except.error err
          | Except.ok resp => toResponse env resp), 1, (clientDo env req).2⟩ := by
  simp only [Report, h1, h2]
  generalize clientDo env req = p
  obtain ⟨res, sent⟩ := p
  cases res with
  | error e => rfl
  | ok resp =>
    simp only
    cases toResponse env resp <;> rfl

/-- C5, counterexample: a response with a status that is not a success does not make
`Report` return an error (with status 500 and a body that decodes, `Report` returns
the decoded response and no error); and `Report` can perform more than one HTTP
request: when the collector answers 307, the one call of `Do` sends the `POST` twice. -/
theorem report_ignores_status :
    (¬ ∀ (env : CollectorEnv) (client : HttpCollectorClient) (buffer : List String)
        (req : HttpRequest) (resp : HttpResponse),
        toRequest env client buffer = Except.ok req →
        env.roundTrip req = Except.ok resp →
        ¬ isSuccessStatus resp.StatusCode →
        ∃ err, (Report env client buffer).result = some (Except.error err)) ∧
    (Report failingCollector connectedClient []).result = some (Except.ok []) ∧
    (Report redirectingCollector connectedClient []).doCalls = 1 ∧
    (Report redirectingCollector connectedClient []).requests =
      [{ method := "POST", url := "https://collector:443/api/v2/reports", body := [],
         contentType := "application/octet-stream" },
       { method := "POST", url := "https://collector:443/moved", body := [],
         contentType := "application/octet-stream" }] := by
  have hres : (Report failingCollector connectedClient []).result = some (Except.ok []) := by
    rfl
  refine ⟨?_, hres, by rfl, by rfl⟩
  intro h
  obtain ⟨err, herr⟩ := h failingCollector connectedClient []
    { method := "POST", url := "https://collector:443/api/v2/reports", body := [],
      contentType := "application/octet-stream" }
    { StatusCode := 500, Location := "", Body := Except.ok [] } rfl rfl (by decide)
  rw [hres] at herr
  cases herr

/-- C5, amended: `Report` calls the HTTP client at most once and never retries; the
requests on the wire are those of that one call, a single request unless the collector
answers with a redirect, which the client follows (10 requests at most).  `Report`
returns a response and no error exactly when the request was built, the call of the
client returned a response and its body was read and deserialized, whatever the status
code; on a connected client it returns an error and no response in every other case,
the error being the one of the step that failed. -/
theorem report_error_contract (env : CollectorEnv) (client : HttpCollectorClient)
    (buffer : List String) :
    (Report env client buffer).doCalls ≤ 1 ∧
    (Report env client buffer).requests.length ≤ 10 ∧
    (∀ response, (Report env client buffer).result = some (Except.ok response) ↔
      ∃ req conn resp body, toRequest env client buffer = Except.ok req ∧
        client.client = some conn ∧ (clientDo env req).1 = Except.ok resp ∧
        resp.Body = Except.ok body ∧ env.unmarshal body = Except.ok response) ∧
    (∀ err, toRequest env client buffer = Except.error err →
      Report env client buffer = ⟨some (Except.error err), 0, []⟩) ∧
    (∀ req conn, toRequest env client buffer = Except.ok req → client.client = some conn →
      (Report env client buffer).doCalls = 1 ∧
      (Report env client buffer).requests = (clientDo env req).2 ∧
      (∀ err, (clientDo env req).1 = Except.error err →
        (Report env client buffer).result = some (Except.error err)) ∧
      (∀ resp, (clientDo env req).1 = Except.ok resp →
        (∀ err, resp.Body = Except.error err →
          (Report env client buffer).result = some (Except.error err)) ∧
        (∀ body err, resp.Body = Except.ok body → env.unmarshal body = Except.error err →
          (Report env client buffer).result = some (Except.error err)) ∧
        (∀ body response, resp.Body = Except.ok body →
          env.unmarshal body = Except.ok response →
          (Report env client buffer).result = some (Except.ok response))) ∧
      (∀ err, env.roundTrip req = Except.error err →
        Report env client buffer = ⟨some (Except.error err), 1, [req]⟩) ∧
      (∀ resp, env.roundTrip req = Except.ok resp →
        ¬ (300 ≤ resp.StatusCode ∧ resp.StatusCode < 400) →
        (Report env client buffer).requests = [req] ∧
        (clientDo env req).1 = Except.ok resp)) := by
  have hlen : ∀ req, (clientDo env req).2.length ≤ 10 := by
    intro req
    have := clientDoLoop_length env req 10 req []
    simpa [clientDo] using this
  have hconn : ∀ req conn, toRequest env client buffer = Except.ok req →
      client.client = some conn →
      (Report env client buffer).doCalls = 1 ∧
      (Report env client buffer).requests = (clientDo env req).2 ∧
      (∀ err, (clientDo env req).1 = Except.error err →
        (Report env client buffer).result = some (Except.error err)) ∧
      (∀ resp, (clientDo env req).1 = Except.ok resp →
        (Report env client buffer).result = some (toResponse env resp)) := by
    intro req conn h1 h2
    rw [Report_connected env client buffer req conn h1 h2]
    refine ⟨rfl, rfl, ?_, ?_⟩
    · intro err he; simp only [he]
    · intro resp hr; simp only [hr]
  have hresp : ∀ resp : HttpResponse,
      (∀ err, resp.Body = Except.error err → toResponse env resp = Except.error err) ∧
      (∀ body err, resp.Body = Except.ok body → env.unmarshal body = Except.error err →
        toResponse env resp = Except.error err) ∧
      (∀ body response, resp.Body = Except.ok body →
        env.unmarshal body = Except.ok response →
        toResponse env resp = Except.ok response) := by
    intro resp
    refine ⟨?_, ?_, ?_⟩
    · intro err hb; rw [toResponse_eq, hb]
    · intro body err hb hu; rw [toResponse_eq, hb]; exact hu
    · intro body response hb hu; rw [toResponse_eq, hb]; exact hu
  refine ⟨?_, ?_, ?_, ?_, ?_⟩
  · cases h1 : toRequest env client buffer with
    | error e => simp [Report, h1]
    | ok req =>
      cases h2 : client.client with
      | none => simp [Report, h1, h2]
      | some conn => rw [(hconn req conn h1 h2).1]
  · cases h1 : toRequest env client buffer with
    | error e => simp [Report, h1]
    | ok req =>
      cases h2 : client.client with
      | none => simp [Report, h1, h2]
      | some conn => rw [(hconn req conn h1 h2).2.1]; exact hlen req
  · intro response
    constructor
    · intro h
      cases h1 : toRequest env client buffer with
      | error e => simp [Report, h1] at h
      | ok req =>
        cases h2 : client.client with
        | none => simp [Report, h1, h2] at h
        | some conn =>
          obtain ⟨_, _, he, ho⟩ := hconn req conn h1 h2
          cases h3 : (clientDo env req).1 with
          | error e =>
            rw [he e h3] at h
            simp at h
          | ok resp =>
            rw [ho resp h3, toResponse_eq] at h
            cases h4 : resp.Body with
            | error e => rw [h4] at h; simp at h
            | ok body =>
              rw [h4] at h
              simp only [Option.some.injEq] at h
              exact ⟨req, conn, resp, body, rfl, rfl, h3, h4, h⟩
    · rintro ⟨req, conn, resp, body, h1, h2, h3, h4, h5⟩
      rw [(hconn req conn h1 h2).2.2.2 resp h3, (hresp resp).2.2 body response h4 h5]
  · intro err h1
    simp [Report, h1]
  · intro req conn h1 h2
    obtain ⟨hd, hr, he, ho⟩ := hconn req conn h1 h2
    refine ⟨hd, hr, he, ?_, ?_, ?_⟩
    · intro resp h3
      refine ⟨?_, ?_, ?_⟩
      · intro err hb; rw [ho resp h3, (hresp resp).1 err hb]
      · intro body err hb hu; rw [ho resp h3, (hresp resp).2.1 body err hb hu]
      · intro body response hb hu; rw [ho resp h3, (hresp resp).2.2 body response hb hu]
    · intro err hrt
      rw [Report_connected env client buffer req conn h1 h2, clientDo_error env req err hrt]
    · intro resp hrt hs
      have := clientDo_final env req resp hrt (redirectBehavior_none _ _ hs)
      rw [hr, this]
      exact ⟨rfl, rfl⟩

/-- Witness of C5 (amended): the collector that answers 500 with a decodable body,
and the collector that redirects once. -/
theorem report_error_contract_witness :
    (Report failingCollector connectedClient []).result = some (Except.ok []) ∧
    (Report failingCollector connectedClient []).requests.length = 1 ∧
    (Report redirectingCollector connectedClient []).doCalls ≤ 1 ∧
    (Report redirectingCollector connectedClient []).requests.length ≤ 10 := by
  have h := report_error_contract failingCollector connectedClient []
  have g := report_error_contract redirectingCollector connectedClient []
  have hreq := (h.2.2.2.2 _ _ rfl rfl).2.2.2.2.2
    { StatusCode := 500, Location := "", Body := Except.ok [] } rfl (by decide)
  refine ⟨(h.2.2.1 []).2 ⟨_, _, _, _, rfl, rfl, hreq.2, rfl, rfl⟩, ?_, g.1, g.2.1⟩
  rw [hreq.1]; rfl

/-- C8, the code: `ShouldReconnect` is false; `ConnectClient` installs a new transport
with the timeout `reportTimeout` in the client, and returns a closer that holds another
transport; `Close` calls `CloseIdleConnections` on that other transport and never on
the transport of the client. -/
theorem connect_close_other_transport (client : HttpCollectorClient) (h : Heap) :
    ShouldReconnect (ConnectClient client h).2.1 = false ∧
    (ConnectClient client h).2.1.client =
      some { Transport := h.length, Timeout := client.reportTimeout } ∧
    (ConnectClient client h).1.transport = h.length + 1 ∧
    ((ConnectClient client h).1.Close (ConnectClient client h).2.2)[h.length]? =
      some { closeIdleCalls := 0 } ∧
    ((ConnectClient client h).1.Close (ConnectClient client h).2.2)[h.length + 1]? =
      some { closeIdleCalls := 1 } := by
  refine ⟨rfl, rfl, by simp [ConnectClient], ?_, ?_⟩
  · simp only [ConnectClient, TransportCloser.Close, List.length_append, List.length_singleton]
    rw [List.getElem?_modify_ne _ _ (by omega), List.append_assoc,
      List.getElem?_append_right (le_refl _)]
    simp
  · simp only [ConnectClient, TransportCloser.Close, List.length_append, List.length_singleton]
    rw [List.getElem?_modify_eq, List.append_assoc,
      List.getElem?_append_right (by omega)]
    simp

/-! ## The control loop -/

set_option maxRecDepth 8000 in
/-- Witness of C3: 7 cycles of 4 ns, flush interval 10 ns, every sleep measured 3 ns
longer than requested: two sleeps, requested 12 and 13 ns, total 31 ns. -/
theorem sleep_debt_rule_witness :
    payloadOk 64 sleepySpec ∧
    ∃ st, testBodyState 64 (fun _ d => d + 3) sleepySpec = some st ∧
      st.sleep_debt = -3 ∧ st.sleepCalls = [(12, 15), (13, 16)] ∧ st.totalSleep = 31 := by
  obtain ⟨st, h1, _, h3, h4, _, _⟩ := sleep_debt_rule 64 (fun _ d => d + 3) sleepySpec
    (by decide)
  have e : specSleepRun sleepySpec.Sleep sleepySpec.SleepInterval (fun _ d => d + 3)
      sleepySpec.Repeat.toNat = (-3, [(12, 15), (13, 16)]) := by decide
  rw [e] at h3
  have hd : st.sleep_debt = -3 := congrArg Prod.fst h3
  have hc : st.sleepCalls = [(12, 15), (13, 16)] := congrArg Prod.snd h3
  rw [hc] at h4
  exact ⟨by decide, st, h1, hd, hc, by rw [h4]; decide⟩

end Lightstep
